import Mathlib

/-!
Verification of the ufc-fight-predictor scraping layer
(`src/scraping/scrape_ufcstats.py` and `src/scraping/scrape_odds.py`).

The Python code is shallowly embedded:
  * HTML pages are abstracted to the exact pieces of structure the code
    queries (lists of hyperlink targets, person blocks, table headers / rows /
    cells, label/value list items).
  * `fetch_page` is abstracted as a function argument `fetch : String → Option Page`;
    `none` models the case where `fetch_page` raises (all retries exhausted).
  * Python `None`-able values are `Option`, Python exceptions are `Except`
    (used in the `_exc` variants that model exception flow explicitly).
  * Python string primitives (`strip`, `split`, `in`, `lower`, `upper`,
    `replace`, `int()`, `float()`) are re-implemented on `List Char` with
    structural recursion so that every definition evaluates inside the kernel.
    Unicode-specific behaviour of Python (non-ASCII digits/whitespace/case,
    underscore digit grouping in numeric literals) is not modelled; all
    claims are about ASCII data.
-/

/-! ## Character and list-of-char utilities (Python string primitives) -/

/-- Python whitespace characters recognised by `str.strip` (ASCII subset). -/
def isPyWS (c : Char) : Bool :=
  c == ' ' || c == '\t' || c == '\n' || c == '\x0d' || c == '\x0b' || c == '\x0c'

/-- Strip leading and trailing whitespace, as Python `str.strip()`. -/
def stripWS (cs : List Char) : List Char :=
  ((cs.dropWhile isPyWS).reverse.dropWhile isPyWS).reverse

/-- Python `str.strip()` on strings. -/
def pyStrip (s : String) : String := String.mk (stripWS s.toList)

/-- Model of `startsWithL pat cs` is true when `pat` is a prefix of `cs`. -/
def startsWithL : List Char → List Char → Bool
  | [], _ => true
  | _ :: _, [] => false
  | p :: ps, c :: cs => p == c && startsWithL ps cs

/-- Model of `containsL pat cs`: does `cs` contain `pat` as a contiguous substring
(Python `pat in cs`)? -/
def containsL (pat : List Char) : List Char → Bool
  | [] => startsWithL pat []
  | c :: cs => startsWithL pat (c :: cs) || containsL pat (cs)

/-- Python `pat in s` on strings. -/
def containsSubstr (s pat : String) : Bool := containsL pat.toList s.toList

/-- Fuel-driven splitter implementing Python `s.split(sep)` for a non-empty
separator: non-overlapping, left-to-right.  Fuel `|s| + 1` always suffices. -/
def splitOnFuel (pat : List Char) : Nat → List Char → List (List Char)
  | 0, cs => [cs]
  | fuel + 1, cs =>
    match cs with
    | [] => [[]]
    | c :: rest =>
      if pat ≠ [] ∧ startsWithL pat (c :: rest) then
        [] :: splitOnFuel pat fuel ((c :: rest).drop pat.length)
      else
        match splitOnFuel pat fuel rest with
        | [] => [[c]]
        | p :: ps => (c :: p) :: ps

/-- Python `s.split(sep)` (non-empty separator). -/
def pySplit (s sep : String) : List String :=
  (splitOnFuel sep.toList (s.toList.length + 1) s.toList).map String.mk

/-- ASCII lower-casing of a char list (Python `str.lower` on ASCII data). -/
def lowerL (cs : List Char) : List Char := cs.map Char.toLower

/-- ASCII upper-casing of a char list (Python `str.upper` on ASCII data). -/
def upperL (cs : List Char) : List Char := cs.map Char.toUpper

/-- Python `s.lower()`. -/
def lowerS (s : String) : String := String.mk (lowerL s.toList)

/-- Python `s.upper()`. -/
def upperS (s : String) : String := String.mk (upperL s.toList)

/-- Numeric value of a digit run (most significant first). -/
def digitsVal (cs : List Char) : Nat :=
  cs.foldl (fun n c => n * 10 + (c.toNat - 48)) 0

/-! ## Python `int()` -/

/-- Python `int(s)` on a char list: strip whitespace, optional single sign,
then a non-empty run of digits; anything else raises `ValueError` (`none`). -/
def pyIntCore (cs0 : List Char) : Option Int :=
  let cs := stripWS cs0
  match cs with
  | [] => none
  | c :: r =>
    if c = '+' then
      if r ≠ [] ∧ r.all Char.isDigit then some (digitsVal r) else none
    else if c = '-' then
      if r ≠ [] ∧ r.all Char.isDigit then some (-(digitsVal r : Int)) else none
    else
      if (c :: r).all Char.isDigit then some (digitsVal (c :: r)) else none

/-- Python `int(s)` on strings; `none` models a raised `ValueError`. -/
def pyInt? (s : String) : Option Int := pyIntCore s.toList

/-! ## Python `float()` -/

/-- The values Python `float()` can produce, with finite values kept as exact
rationals (IEEE-754 rounding is not modelled; no claim inspects a rounded
value). -/
inductive PyFloat where
  | finite : ℚ → PyFloat
  | infinite : Bool → PyFloat
  | nan : PyFloat
  deriving DecidableEq

/-- Mantissa/exponent assembly for `pyFloatCore`: integer part value, fraction
digits, and the remaining input (which must be empty or a full exponent). -/
def pyFloatExp (neg : Bool) (ipVal : Nat) (fp : List Char) (rest : List Char) :
    Option PyFloat :=
  let mant : ℚ := (ipVal : ℚ) + (digitsVal fp : ℚ) / (10 : ℚ) ^ fp.length
  let signed : ℚ := if neg then -mant else mant
  match rest with
  | [] => some (.finite signed)
  | e :: r =>
    if e = 'e' ∨ e = 'E' then
      let (eneg, r2) :=
        match r with
        | c :: rr => if c = '+' then (false, rr) else if c = '-' then (true, rr) else (false, r)
        | [] => (false, ([] : List Char))
      let ds := r2.takeWhile Char.isDigit
      let r3 := r2.dropWhile Char.isDigit
      if ds = [] ∨ r3 ≠ [] then none
      else
        let ex : ℚ := if eneg then 1 / (10 : ℚ) ^ digitsVal ds else (10 : ℚ) ^ digitsVal ds
        some (.finite (signed * ex))
    else none

/-- Python `float(s)` on a char list: strip, optional sign, then `inf`,
`infinity`, `nan` (case-insensitive) or a decimal literal with optional
fraction and exponent.  `none` models a raised `ValueError`. -/
def pyFloatCore (cs0 : List Char) : Option PyFloat :=
  let cs1 := stripWS cs0
  let (neg, cs) :=
    match cs1 with
    | c :: r => if c = '+' then (false, r) else if c = '-' then (true, r) else (false, cs1)
    | [] => (false, ([] : List Char))
  let low := lowerL cs
  if low = "inf".toList ∨ low = "infinity".toList then some (.infinite neg)
  else if low = "nan".toList then some .nan
  else
    let ip := cs.takeWhile Char.isDigit
    let rest := cs.dropWhile Char.isDigit
    match rest with
    | '.' :: r2 =>
      let fp := r2.takeWhile Char.isDigit
      let r3 := r2.dropWhile Char.isDigit
      if ip = [] ∧ fp = [] then none
      else pyFloatExp neg (digitsVal ip) fp r3
    | r2 =>
      if ip = [] then none
      else pyFloatExp neg (digitsVal ip) [] r2

/-- Python `float(s)` on strings; `none` models a raised `ValueError`. -/
def pyFloat? (s : String) : Option PyFloat := pyFloatCore s.toList

/-- Model of `int()` in the exception monad (raises `ValueError`). -/
def pyIntE (s : String) : Except String Int :=
  match pyInt? s with
  | some n => .ok n
  | none => .error "ValueError"

/-- Model of `int()` on char lists in the exception monad. -/
def pyIntCoreE (cs : List Char) : Except String Int :=
  match pyIntCore cs with
  | some n => .ok n
  | none => .error "ValueError"

/-- Model of `float()` in the exception monad (raises `ValueError`). -/
def pyFloatE (s : String) : Except String PyFloat :=
  match pyFloat? s with
  | some x => .ok x
  | none => .error "ValueError"

/-! ## Text normalizers (`scrape_ufcstats.py` lines 235–311, `scrape_odds.py` lines 26–45)

Each normalizer gets two embeddings: the plain `Option`-returning function
(the observable behaviour of the Python code) and an `_exc` variant in the
`Except` monad that models the exception flow explicitly — every `int()` /
`float()` call can raise `ValueError`, and only the `try/except` blocks
present in the source catch it.  The totality claim is that the `_exc`
variant never ends in `.error` and agrees with the plain function. -/

/-- Model of `parse_made_of` (`scrape_ufcstats.py:235`): split on the literal token
`"of"`, require exactly two parts, parse both as integers after stripping;
`(none, none)` on any failure.  `none` input models Python `None`. -/
def parse_made_of (value : Option String) : Option Int × Option Int :=
  match value with
  | none => (none, none)
  | some v =>
    if v = "" then (none, none)
    else
      let parts := pySplit v "of"
      if parts.length ≠ 2 then (none, none)
      else
        match pyInt? (pyStrip (parts.getD 0 "")), pyInt? (pyStrip (parts.getD 1 "")) with
        | some made, some att => (some made, some att)
        | _, _ => (none, none)

/-- Model of `parse_made_of` with explicit exception flow: the two `int()` calls sit
inside one `try` whose `except ValueError` returns `(None, None)`. -/
def parse_made_of_exc (value : Option String) : Except String (Option Int × Option Int) :=
  match value with
  | none => .ok (none, none)
  | some v =>
    if v = "" then .ok (none, none)
    else
      let parts := pySplit v "of"
      if parts.length ≠ 2 then .ok (none, none)
      else
        match (do
          let made ← pyIntE (pyStrip (parts.getD 0 ""))
          let att ← pyIntE (pyStrip (parts.getD 1 ""))
          pure (some made, some att) : Except String (Option Int × Option Int)) with
        | .ok r => .ok r
        | .error e => if e = "ValueError" then .ok (none, none) else .error e

/-- Modelled from the spec sentence for `parse_made_of`: split on the literal
token "of"; exactly two parts, both parsing as integers after whitespace
stripping, give the pair; every other case gives `(none, none)`. -/
def parse_made_of_specModel (value : Option String) : Option Int × Option Int :=
  match value with
  | none => (none, none)
  | some v =>
    let parts := pySplit v "of"
    if parts.length = 2 then
      match pyInt? (pyStrip (parts.getD 0 "")), pyInt? (pyStrip (parts.getD 1 "")) with
      | some made, some att => (some made, some att)
      | _, _ => (none, none)
    else (none, none)

/-- Model of `takeDigits1 cs`: the leading non-empty digit run of `cs` and the rest
(the regex fragment `(\d+)`); `none` when `cs` does not start with a digit. -/
def takeDigits1 (cs : List Char) : Option (List Char × List Char) :=
  let ds := cs.takeWhile Char.isDigit
  if ds = [] then none else some (ds, cs.dropWhile Char.isDigit)

/-- Matcher for the height regex `(\d+)\s*'\s*(\d+)\s*\"` (with closing
quote), anchored at the start, trailing text ignored (as `re.match` with no
`$`).  Returns the two digit groups.  Greedy matching without backtracking is
equivalent here because a digit can never satisfy `'` or `\"`. -/
def matchHeightFull (cs : List Char) : Option (List Char × List Char) :=
  match takeDigits1 cs with
  | none => none
  | some (d1, r1) =>
    match r1.dropWhile isPyWS with
    | '\'' :: r2 =>
      (match takeDigits1 (r2.dropWhile isPyWS) with
      | none => none
      | some (d2, r4) =>
        match r4.dropWhile isPyWS with
        | '"' :: _ => some (d1, d2)
        | _ => none)
    | _ => none

/-- Matcher for the fallback height regex `(\d+)\s*'\s*(\d+)` (no closing
quote required). -/
def matchHeightBare (cs : List Char) : Option (List Char × List Char) :=
  match takeDigits1 cs with
  | none => none
  | some (d1, r1) =>
    match r1.dropWhile isPyWS with
    | '\'' :: r2 =>
      (match takeDigits1 (r2.dropWhile isPyWS) with
      | none => none
      | some (d2, _) => some (d1, d2))
    | _ => none

/-- Model of `parse_height_to_inches` (`scrape_ufcstats.py:253`): strip, reject the
`"--"` / `""` placeholders, try the quoted regex then the bare one, and
return `feet * 12 + inches`.  `none` input models a non-string argument. -/
def parse_height_to_inches (text : Option String) : Option Int :=
  match text with
  | none => none
  | some s =>
    let t := pyStrip s
    if t = "--" ∨ t = "" then none
    else
      match matchHeightFull t.toList <|> matchHeightBare t.toList with
      | none => none
      | some (d1, d2) => some (digitsVal d1 * 12 + digitsVal d2)

/-- Model of `parse_height_to_inches` with explicit exception flow: the two `int()`
calls on the regex groups are NOT wrapped in any `try/except` in the source,
so a `ValueError` there would propagate. -/
def parse_height_to_inches_exc (text : Option String) : Except String (Option Int) :=
  match text with
  | none => .ok none
  | some s =>
    let t := pyStrip s
    if t = "--" ∨ t = "" then .ok none
    else
      match matchHeightFull t.toList <|> matchHeightBare t.toList with
      | none => .ok none
      | some (d1, d2) => do
        let feet ← pyIntCoreE d1
        let inches ← pyIntCoreE d2
        pure (some (feet * 12 + inches))

/-- Model of `parse_reach_to_inches` (`scrape_ufcstats.py:277`): strip, reject
placeholders, drop every `"` character (`str.replace`), parse as float. -/
def parse_reach_to_inches (text : Option String) : Option PyFloat :=
  match text with
  | none => none
  | some s =>
    let t := pyStrip s
    if t = "--" ∨ t = "" then none
    else pyFloat? (String.mk (t.toList.filter (fun c => c ≠ '"')))

/-- Model of `parse_reach_to_inches` with explicit exception flow: the `float()` call
sits in a `try` with `except ValueError` returning `None`. -/
def parse_reach_to_inches_exc (text : Option String) : Except String (Option PyFloat) :=
  match text with
  | none => .ok none
  | some s =>
    let t := pyStrip s
    if t = "--" ∨ t = "" then .ok none
    else
      match pyFloatE (String.mk (t.toList.filter (fun c => c ≠ '"'))) with
      | .ok x => .ok (some x)
      | .error e => if e = "ValueError" then .ok none else .error e

/-- Model of `parse_float_stat` (`scrape_ufcstats.py:296`): strip, reject
placeholders, drop every `%` character, strip again, parse as float. -/
def parse_float_stat (text : Option String) : Option PyFloat :=
  match text with
  | none => none
  | some s =>
    let t := pyStrip s
    if t = "--" ∨ t = "" then none
    else pyFloat? (pyStrip (String.mk (t.toList.filter (fun c => c ≠ '%'))))

/-- Model of `parse_float_stat` with explicit exception flow: `float()` inside
`try` / `except ValueError`. -/
def parse_float_stat_exc (text : Option String) : Except String (Option PyFloat) :=
  match text with
  | none => .ok none
  | some s =>
    let t := pyStrip s
    if t = "--" ∨ t = "" then .ok none
    else
      match pyFloatE (pyStrip (String.mk (t.toList.filter (fun c => c ≠ '%')))) with
      | .ok x => .ok (some x)
      | .error e => if e = "ValueError" then .ok none else .error e

/-- The group of the odds regex `^([+-]?\d+)`: one optional sign character
followed by a non-empty digit run, taken from the start of the input.
Backtracking is irrelevant: if the sign is consumed and no digit follows,
the sign character itself is not a digit, so the regex fails either way. -/
def oddsGroup (cs : List Char) : Option (List Char) :=
  match cs with
  | [] => none
  | c :: r =>
    if c = '+' ∨ c = '-' then
      if r.takeWhile Char.isDigit = [] then none
      else some (c :: r.takeWhile Char.isDigit)
    else
      if (c :: r).takeWhile Char.isDigit = [] then none
      else some ((c :: r).takeWhile Char.isDigit)

/-- Model of `parse_american_odds` (`scrape_odds.py:26`): `None` / empty after strip
give `None`; otherwise `int()` of the leading `[+-]?\d+` match, `None` when
the regex does not match. -/
def parse_american_odds (text : Option String) : Option Int :=
  match text with
  | none => none
  | some s =>
    let t := pyStrip s
    if t = "" then none
    else
      match oddsGroup t.toList with
      | none => none
      | some g => pyIntCore g

/-- Model of `parse_american_odds` with explicit exception flow: `int()` on the
matched group inside `try` / `except ValueError`. -/
def parse_american_odds_exc (text : Option String) : Except String (Option Int) :=
  match text with
  | none => .ok none
  | some s =>
    let t := pyStrip s
    if t = "" then .ok none
    else
      match oddsGroup t.toList with
      | none => .ok none
      | some g =>
        match pyIntCoreE g with
        | .ok n => .ok (some n)
        | .error e => if e = "ValueError" then .ok none else .error e

/-- Modelled from the spec sentence for `parse_american_odds`: after
whitespace stripping, a string beginning with an optional sign followed by
digits denotes that signed integer; null input, empty strings and strings
without such a leading prefix give null. -/
def leadingSignedInt (cs : List Char) : Option Int :=
  match cs with
  | [] => none
  | c :: r =>
    if c = '-' then
      let ds := r.takeWhile Char.isDigit
      if ds = [] then none else some (-(digitsVal ds : Int))
    else if c = '+' then
      let ds := r.takeWhile Char.isDigit
      if ds = [] then none else some (digitsVal ds)
    else
      let ds := (c :: r).takeWhile Char.isDigit
      if ds = [] then none else some (digitsVal ds)

/-- Modelled from the spec: `parse_american_odds` as the spec states it. -/
def parse_american_odds_specModel (text : Option String) : Option Int :=
  match text with
  | none => none
  | some s => leadingSignedInt (pyStrip s).toList

/-! ## Event discovery (`scrape_ufcstats.py` lines 90–153) -/

def BASE_URL : String := "http://ufcstats.com"

def EVENTS_COMPLETED_URL : String := BASE_URL ++ "/statistics/events/completed"

/-- Model of `build_events_page_url` (`scrape_ufcstats.py:90`): page 0 is the default
listing, every later page is the single `?page=all` view. -/
def build_events_page_url (page : Nat) : String :=
  if page = 0 then EVENTS_COMPLETED_URL
  else EVENTS_COMPLETED_URL ++ "?page=all"

/-- Python `s.rstrip("/")`. -/
def rstripSlash (s : String) : String :=
  String.mk ((s.toList.reverse.dropWhile (fun c => c = '/')).reverse)

/-- Python `s.lstrip("/")`. -/
def lstripSlash (s : String) : String :=
  String.mk (s.toList.dropWhile (fun c => c = '/'))

/-- Absolute-URL normalization in `scrape_event_urls` (`scrape_ufcstats.py:132`). -/
def normalizeEventUrl (href : String) : String :=
  if startsWithL "http".toList href.toList then href
  else rstripSlash BASE_URL ++ "/" ++ lstripSlash href

/-- Mutable state of the `scrape_event_urls` loop: the accumulated result
list and the seen-set (modelled as a list, membership via `contains`). -/
structure EventScrapeState where
  all_event_urls : List String
  seen : List String
  deriving DecidableEq

/-- One events page: scan the hyperlink targets in document order, keep those
containing `"/event-details/"`, normalize, and append unseen ones to both the
result list and the per-page list (`scrape_ufcstats.py:126-140`).  Returns the
updated state and `page_event_urls`. -/
def processEventPage : List String → EventScrapeState → EventScrapeState × List String
  | [], st => (st, [])
  | href :: rest, st =>
    if containsSubstr href "/event-details/" then
      let event_url := normalizeEventUrl href
      if st.seen.contains event_url then processEventPage rest st
      else
        let st' : EventScrapeState :=
          { all_event_urls := st.all_event_urls ++ [event_url]
            seen := event_url :: st.seen }
        let (st'', page) := processEventPage rest st'
        (st'', event_url :: page)
    else processEventPage rest st

/-- Observable outcome of an event-discovery run: the returned URL list plus
two instrumentation fields — how many pages contributed at least one new link
(`yieldingPages`) and whether the loop broke on a page with zero new links
(`stoppedOnEmpty`).  The Python function returns only `urls`. -/
structure EventScrapeResult where
  urls : List String
  yieldingPages : Nat
  stoppedOnEmpty : Bool
  deriving DecidableEq

/-- The `for page in range(max_pages)` loop of `scrape_event_urls`
(`scrape_ufcstats.py:115-150`), over an explicit list of page indices.
A fetch error (`none`) breaks with partial results; a page yielding zero new
links breaks with partial results; otherwise the loop continues. -/
def scrapeEventPages (fetch : String → Option (List String)) :
    List Nat → EventScrapeState → EventScrapeResult
  | [], st => { urls := st.all_event_urls, yieldingPages := 0, stoppedOnEmpty := false }
  | page :: rest, st =>
    match fetch (build_events_page_url page) with
    | none => { urls := st.all_event_urls, yieldingPages := 0, stoppedOnEmpty := false }
    | some hrefs =>
      match processEventPage hrefs st with
      | (st', pageUrls) =>
        if pageUrls.isEmpty then
          { urls := st'.all_event_urls, yieldingPages := 0, stoppedOnEmpty := true }
        else
          let r := scrapeEventPages fetch rest st'
          { urls := r.urls, yieldingPages := r.yieldingPages + 1,
            stoppedOnEmpty := r.stoppedOnEmpty }

/-- Model of `scrape_event_urls` (`scrape_ufcstats.py:105`): run the page loop from the
empty state and return the accumulated unique event URLs.  `fetch url = some
hrefs` gives the `href` targets of all anchors on the page in document order;
`none` models `fetch_page` raising. -/
def scrape_event_urls (fetch : String → Option (List String)) (max_pages : Nat) :
    List String :=
  (scrapeEventPages fetch (List.range max_pages)
    { all_event_urls := [], seen := [] }).urls

/-! ## Fight pages (`scrape_ufcstats.py` lines 477–641) -/

/-- One `div.b-fight-details__person` block: the text of its
`i.b-fight-details__person-status` child (`none` when absent), and its
`a.b-link` anchor as `(text, href attribute)` (`none` when absent; the href
attribute itself may be missing). -/
structure PersonBlock where
  status : Option String
  link : Option (String × Option String)
  deriving DecidableEq

/-- A `tbody` of a fight-details table: its first
`tr.b-fight-details__table-row`, as the list of
`td.b-fight-details__table-col` cells, each cell being the stripped texts of
its `p` children (`none` when no such row exists). -/
structure TBody where
  firstRow : Option (List (List String))
  deriving DecidableEq

/-- One `table.b-fight-details__table` on a fight page: the text of its
`thead` (`none` when absent) and its `tbody` (`none` when absent). -/
structure FightTable where
  header : Option String
  tbody : Option TBody
  deriving DecidableEq

/-- The parts of a fight-details page the scraper queries. -/
structure FightPage where
  persons : List PersonBlock
  tables : List FightTable
  deriving DecidableEq

/-- The `result` dict of `scrape_fight_details` (`scrape_ufcstats.py:488`). -/
structure FightDetail where
  fight_url : String
  winner : Option String
  red_kd : Option Int
  blue_kd : Option Int
  red_sig_str_landed : Option Int
  red_sig_str_attempted : Option Int
  blue_sig_str_landed : Option Int
  blue_sig_str_attempted : Option Int
  red_td_landed : Option Int
  red_td_attempted : Option Int
  blue_td_landed : Option Int
  blue_td_attempted : Option Int
  deriving DecidableEq

/-- The freshly initialised `result` dict: URL set, everything else null. -/
def initFightDetail (fight_url : String) : FightDetail :=
  { fight_url := fight_url, winner := none, red_kd := none, blue_kd := none,
    red_sig_str_landed := none, red_sig_str_attempted := none,
    blue_sig_str_landed := none, blue_sig_str_attempted := none,
    red_td_landed := none, red_td_attempted := none,
    blue_td_landed := none, blue_td_attempted := none }

/-- Winner parsing (`scrape_ufcstats.py:506-517`): with at least two person
blocks, a missing status reads as `""`; `"W"` in the red text gives `"Red"`,
otherwise `"W"` in the blue text gives `"Blue"`, otherwise no winner. -/
def winnerFromStatuses : List PersonBlock → Option String
  | p0 :: p1 :: _ =>
    let red_text := p0.status.getD ""
    let blue_text := p1.status.getD ""
    if containsSubstr red_text "W" then some "Red"
    else if containsSubstr blue_text "W" then some "Blue"
    else none
  | _ => none

/-- Totals-table location (`scrape_ufcstats.py:524-534`): the first table
with a `thead` whose lower-cased text contains `"fighter"`, `"kd"` and
`"sig. str."`. -/
def findTotalsTable (tables : List FightTable) : Option FightTable :=
  tables.find? fun t =>
    match t.header with
    | none => false
    | some h =>
      let ht := lowerS h
      containsSubstr ht "fighter" && containsSubstr ht "kd" &&
        containsSubstr ht "sig. str."

/-- Model of `int(text or 0)` for a KD cell: empty text counts as `0`, anything else
goes through `int()` (`none` models the raised `ValueError`). -/
def kdParse (s : String) : Option Int :=
  if s = "" then some 0 else pyInt? s

/-- KD extraction (`scrape_ufcstats.py:558-565`): both assignments sit in one
`try` with a bare `except: pass`, red first — if the red text fails to parse
nothing is set, if only the blue text fails the red assignment is kept. -/
def extractKD (cells : List (List String)) (r : FightDetail) : FightDetail :=
  match cells.getD 1 [] with
  | t0 :: t1 :: _ =>
    (match kdParse t0 with
    | none => r
    | some rv =>
      match kdParse t1 with
      | none => { r with red_kd := some rv }
      | some bv => { r with red_kd := some rv, blue_kd := some bv })
  | _ => r

/-- Significant-strike extraction (`scrape_ufcstats.py:568-575`). -/
def extractSig (cells : List (List String)) (r : FightDetail) : FightDetail :=
  match cells.getD 2 [] with
  | t0 :: t1 :: _ =>
    let rs := parse_made_of (some t0)
    let bs := parse_made_of (some t1)
    { r with red_sig_str_landed := rs.1, red_sig_str_attempted := rs.2,
             blue_sig_str_landed := bs.1, blue_sig_str_attempted := bs.2 }
  | _ => r

/-- Takedown extraction (`scrape_ufcstats.py:578-585`). -/
def extractTD (cells : List (List String)) (r : FightDetail) : FightDetail :=
  match cells.getD 5 [] with
  | t0 :: t1 :: _ =>
    let rt := parse_made_of (some t0)
    let bt := parse_made_of (some t1)
    { r with red_td_landed := rt.1, red_td_attempted := rt.2,
             blue_td_landed := bt.1, blue_td_attempted := bt.2 }
  | _ => r

/-- Statistics extraction (`scrape_ufcstats.py:522-585`): locate the totals
table; missing table, missing `tbody`, missing data row, or fewer than 6
cells each return `r` unchanged (early `return result`); otherwise extract
KD, significant strikes and takedowns from the fixed cell indices. -/
def extractStats (tables : List FightTable) (r : FightDetail) : FightDetail :=
  match findTotalsTable tables with
  | none => r
  | some t =>
    match t.tbody with
    | none => r
    | some tb =>
      match tb.firstRow with
      | none => r
      | some cells =>
        if cells.length < 6 then r
        else extractTD cells (extractSig cells (extractKD cells r))

/-- Model of `scrape_fight_details` (`scrape_ufcstats.py:477`): on fetch failure the
Python function returns the EMPTY dict `{}` (modelled as `none` — no keys at
all, not a null-filled record); otherwise the initialised record with the
winner set from the person blocks and statistics from the totals table. -/
def scrape_fight_details (fetch : String → Option FightPage) (fight_url : String) :
    Option FightDetail :=
  match fetch fight_url with
  | none => none
  | some page =>
    let r := { initFightDetail fight_url with winner := winnerFromStatuses page.persons }
    some (extractStats page.tables r)

/-- The early-`return result` conditions of the statistics section of
`scrape_fight_details`, as one decidable predicate: no totals table, or no
`tbody`, or no data row, or fewer than 6 cells. -/
def statsExtractionFails (tables : List FightTable) : Bool :=
  match findTotalsTable tables with
  | none => true
  | some t =>
    match t.tbody with
    | none => true
    | some tb =>
      match tb.firstRow with
      | none => true
      | some cells => cells.length < 6

/-! ## Fighter profiles (`scrape_ufcstats.py` lines 314–427) -/

/-- The parts of a fighter profile page the scraper queries: the
`span.b-content__title-highlight` text and, per `div.b-list__info-box`, the
raw texts of its `li.b-list__box-list-item` children. -/
structure ProfilePage where
  name : Option String
  infoBoxes : List (List String)
  deriving DecidableEq

/-- The `result` dict of `scrape_fighter_profile` (`scrape_ufcstats.py:356`). -/
structure FighterProfile where
  fighter_url : String
  fighter_name : Option String
  height_in : Option Int
  reach_in : Option PyFloat
  stance : Option String
  dob : Option String
  slpm : Option PyFloat
  sapm : Option PyFloat
  str_acc : Option PyFloat
  str_def : Option PyFloat
  td_avg : Option PyFloat
  td_acc : Option PyFloat
  td_def : Option PyFloat
  sub_avg : Option PyFloat
  deriving DecidableEq

/-- The null-initialised profile record (also the fetch-failure return value:
URL kept, every other field null — `scrape_ufcstats.py:338-353`). -/
def emptyProfile (fighter_url : String) : FighterProfile :=
  { fighter_url := fighter_url, fighter_name := none, height_in := none,
    reach_in := none, stance := none, dob := none, slpm := none, sapm := none,
    str_acc := none, str_def := none, td_avg := none, td_acc := none,
    td_def := none, sub_avg := none }

/-- Model of `" ".join(text.split())`: collapse whitespace runs to single spaces. -/
def splitWSGo : List Char → List Char → List (List Char)
  | [], cur => if cur = [] then [] else [cur.reverse]
  | c :: cs, cur =>
    if isPyWS c then
      if cur = [] then splitWSGo cs []
      else cur.reverse :: splitWSGo cs []
    else splitWSGo cs (c :: cur)

/-- Whitespace normalization used on every list-item text
(`scrape_ufcstats.py:382`). -/
def wsNormalize (s : String) : String :=
  String.mk (List.intercalate [' '] (splitWSGo s.toList []))

/-- Python `text.split(":", 1)` when a colon is present: the part before the
first colon and everything after it; `none` when there is no colon (the
`if ":" not in text: continue` guard). -/
def splitFirstColon : List Char → List Char → Option (List Char × List Char)
  | [], _ => none
  | c :: cs, acc =>
    if c = ':' then some (acc.reverse, cs)
    else splitFirstColon cs (c :: acc)

/-- First label/value pass (`scrape_ufcstats.py:380-400`): HEIGHT, REACH,
STANCE and DOB by exact upper-cased label match; placeholder values become
null for STANCE and DOB. -/
def applyBioItem (r : FighterProfile) (rawText : String) : FighterProfile :=
  match splitFirstColon (wsNormalize rawText).toList [] with
  | none => r
  | some (lRaw, vRaw) =>
    let label := pyStrip (String.mk lRaw)
    let value := pyStrip (String.mk vRaw)
    let lu := upperS label
    if lu = "HEIGHT" then { r with height_in := parse_height_to_inches (some value) }
    else if lu = "REACH" then { r with reach_in := parse_reach_to_inches (some value) }
    else if lu = "STANCE" then
      { r with stance := if value = "--" ∨ value = "" then none else some value }
    else if lu = "DOB" then
      { r with dob := if value = "--" ∨ value = "" then none else some value }
    else r

/-- Second label/value pass (`scrape_ufcstats.py:404-425`): the eight career
statistics, matched by substring containment of the key in the upper-cased
label, applied in the source dict's order. -/
def applyStatItem (r : FighterProfile) (rawText : String) : FighterProfile :=
  match splitFirstColon (wsNormalize rawText).toList [] with
  | none => r
  | some (lRaw, vRaw) =>
    let lu := upperS (pyStrip (String.mk lRaw))
    let value := pyStrip (String.mk vRaw)
    let r := if containsSubstr lu "SLPM" then { r with slpm := parse_float_stat (some value) } else r
    let r := if containsSubstr lu "SAPM" then { r with sapm := parse_float_stat (some value) } else r
    let r := if containsSubstr lu "STR. ACC." then { r with str_acc := parse_float_stat (some value) } else r
    let r := if containsSubstr lu "STR. DEF." then { r with str_def := parse_float_stat (some value) } else r
    let r := if containsSubstr lu "TD AVG." then { r with td_avg := parse_float_stat (some value) } else r
    let r := if containsSubstr lu "TD ACC." then { r with td_acc := parse_float_stat (some value) } else r
    let r := if containsSubstr lu "TD DEF." then { r with td_def := parse_float_stat (some value) } else r
    let r := if containsSubstr lu "SUB. AVG." then { r with sub_avg := parse_float_stat (some value) } else r
    r

/-- Model of `scrape_fighter_profile` (`scrape_ufcstats.py:314`): on fetch failure a
record carrying the input URL with every other field null; otherwise the name
from the heading plus two passes over all info-box list items. -/
def scrape_fighter_profile (fetch : String → Option ProfilePage)
    (fighter_url : String) : FighterProfile :=
  match fetch fighter_url with
  | none => emptyProfile fighter_url
  | some page =>
    let r := emptyProfile fighter_url
    let r := match page.name with
      | some n => { r with fighter_name := some n }
      | none => r
    let r := page.infoBoxes.foldl (fun r box => box.foldl applyBioItem r) r
    let r := page.infoBoxes.foldl (fun r box => box.foldl applyStatItem r) r
    r

/-! ## Fighter-URL extraction and the fighter index
(`scrape_ufcstats.py` lines 590–693) -/

/-- The return dict of `extract_fighter_urls_from_fight`
(`scrape_ufcstats.py:590`). -/
structure FightPersons where
  fight_url : String
  red_fighter_name : Option String
  red_fighter_url : Option String
  blue_fighter_name : Option String
  blue_fighter_url : Option String
  deriving DecidableEq

/-- Model of `extract_fighter_urls_from_fight` (`scrape_ufcstats.py:590`): on fetch
failure a record carrying the fight URL with all four fields null; otherwise
names and hrefs of the `a.b-link` anchors of the first two person blocks. -/
def extract_fighter_urls_from_fight (fetch : String → Option FightPage)
    (fight_url : String) : FightPersons :=
  match fetch fight_url with
  | none =>
    { fight_url := fight_url, red_fighter_name := none, red_fighter_url := none,
      blue_fighter_name := none, blue_fighter_url := none }
  | some page =>
    match page.persons with
    | p0 :: p1 :: _ =>
      let (rn, ru) := match p0.link with
        | some (n, u) => (some n, u)
        | none => (none, none)
      let (bn, bu) := match p1.link with
        | some (n, u) => (some n, u)
        | none => (none, none)
      { fight_url := fight_url, red_fighter_name := rn, red_fighter_url := ru,
        blue_fighter_name := bn, blue_fighter_url := bu }
    | _ =>
      { fight_url := fight_url, red_fighter_name := none, red_fighter_url := none,
        blue_fighter_name := none, blue_fighter_url := none }

/-- One row of the fighter index (`fighter_name`, `fighter_url`). -/
structure FighterRow where
  fighter_name : Option String
  fighter_url : Option String
  deriving DecidableEq

/-- Truthiness of an optional string, as Python `if info.get(...)`:
present and non-empty. -/
def truthy : Option String → Bool
  | none => false
  | some s => s ≠ ""

/-- Row accumulation of `build_fighter_index_from_fights`
(`scrape_ufcstats.py:661-676`): for each fight URL, extract the two corners
and append a row per corner whose fighter URL is truthy. -/
def buildFighterRows (fetch : String → Option FightPage) :
    List String → List FighterRow
  | [] => []
  | fight_url :: rest =>
    let info := extract_fighter_urls_from_fight fetch fight_url
    let here :=
      (if truthy info.red_fighter_url then
        [{ fighter_name := info.red_fighter_name,
           fighter_url := info.red_fighter_url : FighterRow }]
      else []) ++
      (if truthy info.blue_fighter_url then
        [{ fighter_name := info.blue_fighter_name,
           fighter_url := info.blue_fighter_url : FighterRow }]
      else [])
    here ++ buildFighterRows fetch rest

/-- First-occurrence deduplication by key, as pandas
`drop_duplicates(column)` with the default `keep="first"`. -/
def dropDuplicatesBy (key : FighterRow → Option String) :
    List FighterRow → List (Option String) → List FighterRow
  | [], _ => []
  | r :: rs, seen =>
    if key r ∈ seen then dropDuplicatesBy key rs seen
    else r :: dropDuplicatesBy key rs (key r :: seen)

/-- Model of `dropna(subset=["fighter_url"]).drop_duplicates("fighter_url")`
(`scrape_ufcstats.py:688`). -/
def dedupeFighterRows (rows : List FighterRow) : List FighterRow :=
  dropDuplicatesBy (fun r => r.fighter_url)
    (rows.filter (fun r => r.fighter_url.isSome)) []

/-- First-occurrence deduplication of fight URLs, as
`fights_df["fight_url"].dropna().unique()` (`scrape_ufcstats.py:656`). -/
def uniqueStrings : List String → List String → List String
  | [], _ => []
  | s :: rest, seen =>
    if s ∈ seen then uniqueStrings rest seen
    else s :: uniqueStrings rest (s :: seen)

/-- Model of `build_fighter_index_from_fights` (`scrape_ufcstats.py:643`), from the
non-null fight URLs of the fights table: accumulate corner rows over the
unique fight URLs, return `none` when no rows were collected (the function
bails out and writes nothing), otherwise the deduplicated index. -/
def build_fighter_index_from_fights (fetch : String → Option FightPage)
    (fight_urls : List (Option String)) : Option (List FighterRow) :=
  let urls := uniqueStrings (fight_urls.filterMap id) []
  let rows := buildFighterRows fetch urls
  if rows = [] then none
  else some (dedupeFighterRows rows)

/-! ## Odds extraction (`scrape_odds.py` lines 48–121) -/

/-- The parts of an odds page the scraper queries: the first `table` element
(`none` when absent) as its `tr` rows, each row the stripped texts of its
`td` cells. -/
structure OddsPage where
  table : Option (List (List String))
  deriving DecidableEq

/-- One record returned by `scrape_event_odds`. -/
structure OddsRecord where
  event_odds_url : String
  red_fighter : String
  blue_fighter : String
  red_odds : Option Int
  blue_odds : Option Int
  deriving DecidableEq

/-- Row handling of `scrape_event_odds` (`scrape_odds.py:94-119`): skip rows
with fewer than 4 cells; parse both odds cells; skip rows whose name cells
are empty; otherwise append the record (null odds are kept). -/
def oddsRowStep (event_odds_url : String) (acc : List OddsRecord)
    (cols : List String) : List OddsRecord :=
  if cols.length < 4 then acc
  else if cols.getD 0 "" = "" ∨ cols.getD 1 "" = "" then acc
  else acc ++ [{ event_odds_url := event_odds_url,
                 red_fighter := cols.getD 0 "",
                 blue_fighter := cols.getD 1 "",
                 red_odds := parse_american_odds (some (cols.getD 2 "")),
                 blue_odds := parse_american_odds (some (cols.getD 3 "")) }]

/-- Model of `scrape_event_odds` (`scrape_odds.py:48`): the fetch here has no retry
and no enclosing `try`, so a fetch failure propagates (`none`); a page
without a table gives the empty list; otherwise the per-row loop. -/
def scrape_event_odds (fetch : String → Option OddsPage)
    (event_odds_url : String) : Option (List OddsRecord) :=
  match fetch event_odds_url with
  | none => none
  | some page =>
    match page.table with
    | none => some []
    | some rows => some (rows.foldl (oddsRowStep event_odds_url) [])

/-! ## Helper lemmas -/

theorem isPyWS_false_of_isDigit {c : Char} (h : c.isDigit = true) :
    isPyWS c = false := by
  cases hws : isPyWS c with
  | false => rfl
  | true =>
    exfalso
    simp only [isPyWS, Bool.or_eq_true, beq_iff_eq] at hws
    rcases hws with ((((rfl | rfl) | rfl) | rfl) | rfl) | rfl <;> exact absurd h (by decide)

theorem dropWhileL_eq_self {p : Char → Bool} {l : List Char}
    (h : ∀ c ∈ l, p c = false) : l.dropWhile p = l := by
  cases l with
  | nil => rfl
  | cons c cs =>
    rw [List.dropWhile_cons]
    simp [h c (List.mem_cons_self c cs)]

theorem stripWS_eq_self {l : List Char} (h : ∀ c ∈ l, isPyWS c = false) :
    stripWS l = l := by
  unfold stripWS
  rw [dropWhileL_eq_self h]
  rw [dropWhileL_eq_self (fun c hc => h c (List.mem_reverse.mp hc))]
  exact List.reverse_reverse l

theorem all_of_takeWhile {p : Char → Bool} (l : List Char) :
    ∀ c ∈ l.takeWhile p, p c = true :=
  fun _ hc => List.mem_takeWhile_imp hc

/-- Model of `int()` succeeds on a non-empty run of digit characters. -/
theorem pyIntCore_digits {ds : List Char} (hne : ds ≠ [])
    (hd : ∀ c ∈ ds, c.isDigit = true) : pyIntCore ds = some (digitsVal ds) := by
  unfold pyIntCore
  rw [stripWS_eq_self (fun c hc => isPyWS_false_of_isDigit (hd c hc))]
  match ds, hne with
  | c :: r, _ =>
    have hc : c.isDigit = true := hd c (List.mem_cons_self c r)
    have hplus : ¬(c = '+') := by rintro rfl; simp [Char.isDigit] at hc
    have hminus : ¬(c = '-') := by rintro rfl; simp [Char.isDigit] at hc
    simp only [hplus, hminus, if_false]
    have : (c :: r).all Char.isDigit = true := List.all_eq_true.mpr hd
    simp [this]

/-- Model of `int()` on a sign character followed by a non-empty run of digits. -/
theorem pyIntCore_sign_digits {ds : List Char} (hne : ds ≠ [])
    (hd : ∀ c ∈ ds, c.isDigit = true) :
    pyIntCore ('+' :: ds) = some (digitsVal ds) ∧
    pyIntCore ('-' :: ds) = some (-(digitsVal ds : Int)) := by
  have hall : ds.all Char.isDigit = true := List.all_eq_true.mpr hd
  have hstripPlus : stripWS ('+' :: ds) = '+' :: ds := by
    refine stripWS_eq_self ?_
    intro c hc
    rcases List.mem_cons.mp hc with rfl | hc
    · decide
    · exact isPyWS_false_of_isDigit (hd c hc)
  have hstripMinus : stripWS ('-' :: ds) = '-' :: ds := by
    refine stripWS_eq_self ?_
    intro c hc
    rcases List.mem_cons.mp hc with rfl | hc
    · decide
    · exact isPyWS_false_of_isDigit (hd c hc)
  constructor
  · unfold pyIntCore
    rw [hstripPlus]
    simp [hne, hall]
  · unfold pyIntCore
    rw [hstripMinus]
    simp [hne, hall]

theorem extractKD_winner (cells : List (List String)) (r : FightDetail) :
    (extractKD cells r).winner = r.winner := by
  unfold extractKD
  split
  · split
    · rfl
    · split <;> rfl
  · rfl

theorem extractSig_winner (cells : List (List String)) (r : FightDetail) :
    (extractSig cells r).winner = r.winner := by
  unfold extractSig
  split <;> rfl

theorem extractTD_winner (cells : List (List String)) (r : FightDetail) :
    (extractTD cells r).winner = r.winner := by
  unfold extractTD
  split <;> rfl

theorem extractStats_winner (tables : List FightTable) (r : FightDetail) :
    (extractStats tables r).winner = r.winner := by
  unfold extractStats
  split
  · rfl
  · split
    · rfl
    · split
      · rfl
      · split
        · rfl
        · simp [extractTD_winner, extractSig_winner, extractKD_winner]

theorem extractSig_kd (cells : List (List String)) (r : FightDetail) :
    (extractSig cells r).red_kd = r.red_kd ∧ (extractSig cells r).blue_kd = r.blue_kd := by
  unfold extractSig
  split <;> exact ⟨rfl, rfl⟩

theorem extractTD_kd (cells : List (List String)) (r : FightDetail) :
    (extractTD cells r).red_kd = r.red_kd ∧ (extractTD cells r).blue_kd = r.blue_kd := by
  unfold extractTD
  split <;> exact ⟨rfl, rfl⟩

theorem extractStats_of_fails {tables : List FightTable} (r : FightDetail)
    (h : statsExtractionFails tables = true) : extractStats tables r = r := by
  unfold statsExtractionFails at h
  unfold extractStats
  split
  · rfl
  next t heq =>
    rw [heq] at h
    simp only [] at h
    split
    · rfl
    next tb heq2 =>
      rw [heq2] at h
      simp only [] at h
      split
      · rfl
      next cells heq3 =>
        rw [heq3] at h
        simp only [decide_eq_true_eq] at h
        simp [h]

theorem takeDigits1_spec {cs ds r : List Char} (h : takeDigits1 cs = some (ds, r)) :
    ds ≠ [] ∧ ∀ c ∈ ds, c.isDigit = true := by
  unfold takeDigits1 at h
  by_cases hne : cs.takeWhile Char.isDigit = []
  · simp [hne] at h
  · simp only [hne, if_false, Option.some.injEq, Prod.mk.injEq] at h
    obtain ⟨rfl, rfl⟩ := h.symm
    exact ⟨hne, all_of_takeWhile cs⟩

/-- Processing a page that contributes no new links leaves the state
unchanged. -/
theorem processEventPage_empty_state {hrefs : List String} :
    ∀ {st : EventScrapeState}, (processEventPage hrefs st).2 = [] →
      (processEventPage hrefs st).1 = st := by
  induction hrefs with
  | nil => intro st _; rfl
  | cons href rest ih =>
    intro st h
    unfold processEventPage at h ⊢
    by_cases hq : containsSubstr href "/event-details/" = true
    · simp only [hq, if_true] at h ⊢
      by_cases hs : st.seen.contains (normalizeEventUrl href) = true
      · simp only [hs, if_true] at h ⊢
        exact ih h
      · simp only [hs, Bool.false_eq_true, if_false] at h ⊢
        rcases hp : processEventPage rest
            { all_event_urls := st.all_event_urls ++ [normalizeEventUrl href],
              seen := normalizeEventUrl href :: st.seen } with ⟨st'', page⟩
        rw [hp] at h
        simp at h
    · simp only [hq, Bool.false_eq_true, if_false] at h ⊢
      exact ih h


theorem dropDuplicatesBy_countP (u : String) :
    ∀ (l : List FighterRow) (seen : List (Option String)),
      (dropDuplicatesBy (fun r => r.fighter_url) l seen).countP
          (fun r => r.fighter_url == some u) =
        if some u ∈ seen then 0
        else if l.any (fun r => r.fighter_url == some u) then 1 else 0 := by
  intro l
  induction l with
  | nil => intro seen; simp [dropDuplicatesBy]
  | cons r rs ih =>
    intro seen
    unfold dropDuplicatesBy
    by_cases hm : r.fighter_url = some u
    · by_cases hc : some u ∈ seen
      · rw [hm, if_pos hc, ih seen, if_pos hc, if_pos hc]
      · rw [hm, if_neg hc, List.countP_cons, ih (some u :: seen),
          if_pos (List.mem_cons_self (some u) seen), if_neg hc, List.any_cons]
        simp [hm]
    · have hbeq : (r.fighter_url == some u) = false := by simp [hm]
      by_cases hc : r.fighter_url ∈ seen
      · rw [if_pos hc, ih seen, List.any_cons, hbeq]
        simp
      · rw [if_neg hc, List.countP_cons, ih (r.fighter_url :: seen), hbeq,
          List.any_cons, hbeq]
        simp only [Bool.false_or, if_neg, Nat.add_zero]
        by_cases hs : some u ∈ seen
        · rw [if_pos (List.mem_cons_of_mem _ hs), if_pos hs]
          simp
        · rw [if_neg (fun hx => (List.mem_cons.mp hx).elim
            (fun he => hm he.symm) hs), if_neg hs]
          simp

theorem dropDuplicatesBy_find? (u : String) :
    ∀ (l : List FighterRow) (seen : List (Option String)),
      some u ∉ seen →
      (dropDuplicatesBy (fun r => r.fighter_url) l seen).find?
          (fun r => r.fighter_url == some u) =
        l.find? (fun r => r.fighter_url == some u) := by
  intro l
  induction l with
  | nil => intro seen _; rfl
  | cons r rs ih =>
    intro seen hseen
    unfold dropDuplicatesBy
    by_cases hm : r.fighter_url = some u
    · have hc : r.fighter_url ∉ seen := by rw [hm]; exact hseen
      rw [if_neg hc]
      rw [List.find?_cons_of_pos _ (by simp [hm]), List.find?_cons_of_pos _ (by simp [hm])]
    · have hbeq : (r.fighter_url == some u) = false := by simp [hm]
      rw [List.find?_cons_of_neg _ (by simp [hbeq])]
      by_cases hc : r.fighter_url ∈ seen
      · rw [if_pos hc]
        exact ih seen hseen
      · rw [if_neg hc]
        rw [List.find?_cons_of_neg _ (by simp [hbeq])]
        refine ih _ (fun hx => (List.mem_cons.mp hx).elim (fun he => hm he.symm) hseen)

theorem filter_preserves_url_countP (u : String) (rows : List FighterRow) :
    (rows.filter (fun r => r.fighter_url.isSome)).countP
        (fun r => r.fighter_url == some u) =
      rows.countP (fun r => r.fighter_url == some u) := by
  induction rows with
  | nil => rfl
  | cons r rs ih =>
    rw [List.filter_cons, List.countP_cons]
    by_cases hq : r.fighter_url.isSome = true
    · simp only [hq, if_true, List.countP_cons, ih]
    · have hbeq : (r.fighter_url == some u) = false := by
        cases hu : r.fighter_url with
        | none => rfl
        | some v => simp [hu] at hq
      simp only [hq, Bool.false_eq_true, if_false, ih, hbeq]
      simp

theorem filter_preserves_url_any (u : String) (rows : List FighterRow) :
    (rows.filter (fun r => r.fighter_url.isSome)).any
        (fun r => r.fighter_url == some u) =
      rows.any (fun r => r.fighter_url == some u) := by
  induction rows with
  | nil => rfl
  | cons r rs ih =>
    rw [List.filter_cons, List.any_cons]
    by_cases hq : r.fighter_url.isSome = true
    · simp only [hq, if_true, List.any_cons, ih]
    · have hbeq : (r.fighter_url == some u) = false := by
        cases hu : r.fighter_url with
        | none => rfl
        | some v => simp [hu] at hq
      simp only [hq, Bool.false_eq_true, if_false, ih, hbeq]
      simp

theorem filter_preserves_url_find? (u : String) (rows : List FighterRow) :
    (rows.filter (fun r => r.fighter_url.isSome)).find?
        (fun r => r.fighter_url == some u) =
      rows.find? (fun r => r.fighter_url == some u) := by
  induction rows with
  | nil => rfl
  | cons r rs ih =>
    rw [List.filter_cons]
    by_cases hq : r.fighter_url.isSome = true
    · simp only [hq, if_true]
      by_cases hp : (r.fighter_url == some u) = true
      · rw [List.find?_cons_of_pos (p := fun x : FighterRow => x.fighter_url == some u) _ hp,
          List.find?_cons_of_pos (p := fun x : FighterRow => x.fighter_url == some u) _ hp]
      · have hp' : (r.fighter_url == some u) = false := by
          cases hb : (r.fighter_url == some u) with
          | false => rfl
          | true => exact absurd hb hp
        rw [List.find?_cons_of_neg _ (by simp [hp']), List.find?_cons_of_neg _ (by simp [hp'])]
        exact ih
    · have hbeq : (r.fighter_url == some u) = false := by
        cases hu : r.fighter_url with
        | none => rfl
        | some v => simp [hu] at hq
      simp only [hq, Bool.false_eq_true, if_false]
      rw [List.find?_cons_of_neg _ (by simp [hbeq])]
      exact ih

/-- The odds row loop only ever appends records with non-empty names. -/
theorem oddsFold_names (url : String) :
    ∀ (rows : List (List String)) (acc : List OddsRecord),
      acc.all (fun rec => !(rec.red_fighter == "") && !(rec.blue_fighter == "")) = true →
      (rows.foldl (oddsRowStep url) acc).all
        (fun rec => !(rec.red_fighter == "") && !(rec.blue_fighter == "")) = true := by
  intro rows
  induction rows with
  | nil => intro acc h; exact h
  | cons cols rest ih =>
    intro acc h
    rw [List.foldl_cons]
    refine ih _ ?_
    unfold oddsRowStep
    by_cases hlen : cols.length < 4
    · rw [if_pos hlen]; exact h
    · rw [if_neg hlen]
      by_cases hemp : cols.getD 0 "" = "" ∨ cols.getD 1 "" = ""
      · rw [if_pos hemp]; exact h
      · rw [if_neg hemp, List.all_append, h]
        push_neg at hemp
        simp only [Bool.true_and, List.all_cons, List.all_nil, Bool.and_true]
        rw [Bool.and_eq_true, Bool.not_eq_true', Bool.not_eq_true',
          beq_eq_false_iff_ne, beq_eq_false_iff_ne]
        exact ⟨hemp.1, hemp.2⟩

/-! ## Claim theorems -/

/-- C9: on fetch failure, `scrape_fight_details` returns the completely empty
dict `{}` (modelled as `none` — no keys, not even `fight_url`), whereas
`scrape_fighter_profile` returns a record carrying the input URL with every
other field null, and `extract_fighter_urls_from_fight` returns a record
carrying the input URL with all four fighter fields null. -/
theorem fetch_failure_return_shapes (url : String) :
    scrape_fight_details (fun _ => none) url = none ∧
    scrape_fighter_profile (fun _ => none) url = emptyProfile url ∧
    extract_fighter_urls_from_fight (fun _ => none) url =
      { fight_url := url, red_fighter_name := none, red_fighter_url := none,
        blue_fighter_name := none, blue_fighter_url := none } :=
  ⟨rfl, rfl, rfl⟩

/-- C4: `parse_made_of` returns the pair of parsed integers exactly when
splitting on the literal token "of" yields exactly two parts that both parse
as integers after whitespace stripping, and `(none, none)` in every other
case (null input, empty input, no "of", several "of", non-integer part);
`"20 of 45"` gives `(20, 45)`, `"N/A"` and `"20-45"` give `(none, none)`. -/
theorem parse_made_of_correct :
    (∀ v : Option String, parse_made_of v = parse_made_of_specModel v) ∧
    parse_made_of (some "20 of 45") = (some 20, some 45) ∧
    parse_made_of (some "N/A") = (none, none) ∧
    parse_made_of (some "20-45") = (none, none) ∧
    parse_made_of (some "1 of 2 of 3") = (none, none) ∧
    parse_made_of none = (none, none) ∧
    parse_made_of (some "") = (none, none) := by
  refine ⟨?_, by decide, by decide, by decide, by decide, rfl, by decide⟩
  intro v
  match v with
  | none => rfl
  | some s =>
    by_cases hs : s = ""
    · subst hs; decide
    · unfold parse_made_of parse_made_of_specModel
      simp only [hs, if_false]
      by_cases hl : (pySplit s "of").length = 2
      · have hl' : ¬((pySplit s "of").length ≠ 2) := by simp [hl]
        rw [if_neg hl', if_pos hl]
      · rw [if_pos hl, if_neg hl]

theorem oddsGroup_agree (cs : List Char) :
    (match oddsGroup cs with
     | none => none
     | some g => pyIntCore g) = leadingSignedInt cs := by
  match cs with
  | [] => rfl
  | c :: r =>
    unfold oddsGroup leadingSignedInt
    simp only []
    by_cases hsign : c = '+' ∨ c = '-'
    · rw [if_pos hsign]
      by_cases hd : r.takeWhile Char.isDigit = []
      · rw [if_pos hd]
        rcases hsign with rfl | rfl <;> simp [hd]
      · rw [if_neg hd]
        have hds : ∀ x ∈ r.takeWhile Char.isDigit, x.isDigit = true :=
          all_of_takeWhile r
        rcases hsign with rfl | rfl
        · simp only []
          rw [(pyIntCore_sign_digits hd hds).1]
          simp [hd]
        · simp only []
          rw [(pyIntCore_sign_digits hd hds).2]
          simp [hd]
    · push_neg at hsign
      rw [if_neg (not_or.mpr ⟨hsign.1, hsign.2⟩)]
      by_cases hd : (c :: r).takeWhile Char.isDigit = []
      · rw [if_pos hd]
        simp [hsign.1, hsign.2, hd]
      · rw [if_neg hd]
        simp only []
        rw [pyIntCore_digits hd (all_of_takeWhile (c :: r))]
        simp [hsign.1, hsign.2, hd]

/-- C5: `parse_american_odds` agrees everywhere with the spec's description —
after whitespace stripping, a leading optional sign followed by digits gives
exactly that signed integer, and null input, empty strings and strings with
no such prefix give null; `"-150"` gives `-150`, `"+130"` gives `130`, `""`
and `"EVEN"` give null, and `"+5"` is accepted (no magnitude validation). -/
theorem parse_american_odds_correct :
    (∀ v : Option String, parse_american_odds v = parse_american_odds_specModel v) ∧
    parse_american_odds (some "-150") = some (-150) ∧
    parse_american_odds (some "+130") = some 130 ∧
    parse_american_odds none = none ∧
    parse_american_odds (some "") = none ∧
    parse_american_odds (some "EVEN") = none ∧
    parse_american_odds (some "+5") = some 5 := by
  refine ⟨?_, by decide, by decide, rfl, by decide, by decide, by decide⟩
  intro v
  match v with
  | none => rfl
  | some s =>
    unfold parse_american_odds parse_american_odds_specModel
    simp only []
    by_cases hs : pyStrip s = ""
    · rw [if_pos hs, hs]
      rfl
    · rw [if_neg hs]
      exact oddsGroup_agree (pyStrip s).toList

/-- C2: on every fight page with at least two person blocks, the winner is
`"Red"` when the first (red) block's status text contains `"W"`, otherwise
`"Blue"` when the second (blue) block's status text contains `"W"`, otherwise
unset — so when both status texts contain `"W"`, the red assignment wins
(red takes priority), regardless of what the statistics tables contain. -/
theorem scrape_fight_details_winner_priority :
    (∀ (url : String) (p0 p1 : PersonBlock) (rest : List PersonBlock)
        (tables : List FightTable),
      (scrape_fight_details
          (fun _ => some { persons := p0 :: p1 :: rest, tables := tables }) url).map
          FightDetail.winner =
        some (if containsSubstr (p0.status.getD "") "W" then some "Red"
              else if containsSubstr (p1.status.getD "") "W" then some "Blue"
              else none)) ∧
    (scrape_fight_details
        (fun _ => some { persons := [{ status := some "W", link := none },
                                     { status := some "W", link := none }],
                         tables := [] }) "u").map FightDetail.winner =
      some (some "Red") := by
  constructor
  · intro url p0 p1 rest tables
    unfold scrape_fight_details
    simp only [Option.map]
    rw [extractStats_winner]
    rfl
  · decide

/-- C3: whenever locating the totals row fails (no table with the required
header tokens, or no body, or no data row, or fewer than 6 cells), the
returned record keeps the already-computed winner and has all ten statistic
fields null; the function returns normally. -/
theorem scrape_fight_details_stats_degradation (page : FightPage) (url : String)
    (h : statsExtractionFails page.tables = true) :
    scrape_fight_details (fun _ => some page) url =
      some { fight_url := url, winner := winnerFromStatuses page.persons,
             red_kd := none, blue_kd := none,
             red_sig_str_landed := none, red_sig_str_attempted := none,
             blue_sig_str_landed := none, blue_sig_str_attempted := none,
             red_td_landed := none, red_td_attempted := none,
             blue_td_landed := none, blue_td_attempted := none } := by
  unfold scrape_fight_details
  simp only []
  rw [extractStats_of_fails _ h]
  rfl

/-- Witness for C3: a page with no tables at all satisfies the failure
condition and yields exactly the winner-only record. -/
theorem scrape_fight_details_stats_degradation_witness :
    statsExtractionFails ({ persons := [{ status := some "W", link := none },
                                        { status := none, link := none }],
                            tables := [] } : FightPage).tables = true ∧
    scrape_fight_details
        (fun _ => some { persons := [{ status := some "W", link := none },
                                     { status := none, link := none }],
                         tables := [] }) "u" =
      some { fight_url := "u", winner := some "Red",
             red_kd := none, blue_kd := none,
             red_sig_str_landed := none, red_sig_str_attempted := none,
             blue_sig_str_landed := none, blue_sig_str_attempted := none,
             red_td_landed := none, red_td_attempted := none,
             blue_td_landed := none, blue_td_attempted := none } := by
  refine ⟨rfl, ?_⟩
  have h := scrape_fight_details_stats_degradation
    { persons := [{ status := some "W", link := none },
                  { status := none, link := none }],
      tables := [] } "u" rfl
  rw [h]
  decide

/-- A fight page whose single table matches the totals-table heuristic and
whose KD cell holds the two given texts (red first, blue second). -/
def kdTestPage (persons : List PersonBlock) (c0 : List String) (rt bt : String)
    (extra : List String) (c2 c3 c4 c5 : List String) : FightPage where
  persons := persons
  tables :=
    [{ header := some "Fighter KD Sig. str.",
       tbody := some { firstRow := some [c0, rt :: bt :: extra, c2, c3, c4, c5] } }]

/-- C8: KD extraction is not atomic — red and blue KD cells are parsed in
sequence inside one exception handler, so when the red KD text parses and the
blue KD text does not, the record keeps `red_kd` set while `blue_kd` stays
null (the partial red assignment is not rolled back). -/
theorem scrape_fight_details_kd_not_atomic (url : String)
    (persons : List PersonBlock) (c0 : List String) (rt bt : String)
    (extra : List String) (c2 c3 c4 c5 : List String) (n : Int)
    (hr : kdParse rt = some n) (hb : kdParse bt = none) :
    ((scrape_fight_details
        (fun _ => some (kdTestPage persons c0 rt bt extra c2 c3 c4 c5)) url).map
        FightDetail.red_kd = some (some n)) ∧
    ((scrape_fight_details
        (fun _ => some (kdTestPage persons c0 rt bt extra c2 c3 c4 c5)) url).map
        FightDetail.blue_kd = some none) := by
  have hkd : ∀ r : FightDetail,
      extractKD [c0, rt :: bt :: extra, c2, c3, c4, c5] r =
        { r with red_kd := some n } := by
    intro r
    unfold extractKD
    rw [show ([c0, rt :: bt :: extra, c2, c3, c4, c5] : List (List String)).getD 1 []
      = rt :: bt :: extra from rfl]
    simp only []
    rw [hr]
    simp only []
    rw [hb]
  have hrun : scrape_fight_details
      (fun _ => some (kdTestPage persons c0 rt bt extra c2 c3 c4 c5)) url =
      some (extractTD [c0, rt :: bt :: extra, c2, c3, c4, c5]
        (extractSig [c0, rt :: bt :: extra, c2, c3, c4, c5]
          { initFightDetail url with winner := winnerFromStatuses persons, red_kd := some n })) := by
    unfold scrape_fight_details extractStats kdTestPage
    simp only []
    rw [show findTotalsTable
        [{ header := some "Fighter KD Sig. str.",
           tbody := some { firstRow := some [c0, rt :: bt :: extra, c2, c3, c4, c5] } }]
      = some { header := some "Fighter KD Sig. str.",
               tbody := some { firstRow := some [c0, rt :: bt :: extra, c2, c3, c4, c5] } }
      from rfl]
    simp only []
    rw [if_neg (show ¬(([c0, rt :: bt :: extra, c2, c3, c4, c5] :
      List (List String)).length < 6) from by simp)]
    rw [hkd]
  constructor
  · rw [hrun]
    simp only [Option.map]
    rw [(extractTD_kd _ _).1, (extractSig_kd _ _).1]
  · rw [hrun]
    simp only [Option.map]
    rw [(extractTD_kd _ _).2, (extractSig_kd _ _).2]
    rfl

/-- Witness for C8: red KD text `"1"` parses, blue KD text `"x"` does not;
the result keeps `red_kd = 1` and `blue_kd = null`. -/
theorem scrape_fight_details_kd_not_atomic_witness :
    ((scrape_fight_details
        (fun _ => some (kdTestPage [] [] "1" "x" [] [] [] [] [])) "u").map
        FightDetail.red_kd = some (some 1)) ∧
    ((scrape_fight_details
        (fun _ => some (kdTestPage [] [] "1" "x" [] [] [] [] [])) "u").map
        FightDetail.blue_kd = some none) :=
  scrape_fight_details_kd_not_atomic "u" [] [] "1" "x" [] [] [] [] [] 1
    (by decide) (by decide)

/-- C10: every record returned by `scrape_event_odds` has non-empty red and
blue fighter names (rows with an empty name cell are skipped even when their
odds parse), while `red_odds` and `blue_odds` may each independently be null
in a returned record. -/
theorem scrape_event_odds_record_invariant :
    (∀ (fetch : String → Option OddsPage) (url : String),
      ((scrape_event_odds fetch url).getD []).all
        (fun rec => !(rec.red_fighter == "") && !(rec.blue_fighter == "")) = true) ∧
    scrape_event_odds (fun _ => some { table := some [["A", "B", "EVEN", "-150"]] }) "u" =
      some [{ event_odds_url := "u", red_fighter := "A", blue_fighter := "B",
              red_odds := none, blue_odds := some (-150) }] ∧
    scrape_event_odds (fun _ => some { table := some [["A", "B", "-150", "EVEN"]] }) "u" =
      some [{ event_odds_url := "u", red_fighter := "A", blue_fighter := "B",
              red_odds := some (-150), blue_odds := none }] ∧
    scrape_event_odds (fun _ => some { table := some [["", "B", "-150", "+130"]] }) "u" =
      some [] := by
  refine ⟨?_, by decide, by decide, by decide⟩
  intro fetch url
  unfold scrape_event_odds
  cases fetch url with
  | none => rfl
  | some page =>
    simp only []
    cases page.table with
    | none => rfl
    | some rows =>
      simp only [Option.getD]
      exact oddsFold_names url rows [] rfl

/-- The fetch function of the fighter-index deduplication example: two
fights, both featuring the fighter profile URL `"X"` — named `"Jon Jones"`
on the first fight seen and `"J. Jones"` on the second. -/
def jjFetch : String → Option FightPage := fun u =>
  if u = "f1" then
    some { persons := [{ status := none, link := some ("Jon Jones", some "X") },
                       { status := none, link := some ("B", some "Y") }],
           tables := [] }
  else
    some { persons := [{ status := none, link := some ("J. Jones", some "X") },
                       { status := none, link := some ("C", some "Z") }],
           tables := [] }

/-- C7: the fighter index is deduplicated by `fighter_url` with the
first-seen name winning — over any accumulated rows, each distinct non-null
fighter URL appears in exactly one output row, and the output row for a URL
is the first accumulated row carrying it (hence carries the first-seen
name); two fights both featuring URL `"X"` named `"Jon Jones"` then
`"J. Jones"` produce exactly one row for `"X"`, named `"Jon Jones"`. -/
theorem fighter_index_dedup :
    (∀ (rows : List FighterRow) (u : String),
      (dedupeFighterRows rows).countP (fun r => r.fighter_url == some u) =
        (if rows.any (fun r => r.fighter_url == some u) then 1 else 0) ∧
      (dedupeFighterRows rows).find? (fun r => r.fighter_url == some u) =
        rows.find? (fun r => r.fighter_url == some u)) ∧
    build_fighter_index_from_fights jjFetch [some "f1", some "f2"] =
      some [{ fighter_name := some "Jon Jones", fighter_url := some "X" },
            { fighter_name := some "B", fighter_url := some "Y" },
            { fighter_name := some "C", fighter_url := some "Z" }] := by
  refine ⟨?_, by decide⟩
  intro rows u
  constructor
  · unfold dedupeFighterRows
    rw [dropDuplicatesBy_countP u _ []]
    simp only [List.not_mem_nil, if_false]
    rw [filter_preserves_url_any]
  · unfold dedupeFighterRows
    rw [dropDuplicatesBy_find? u _ [] (List.not_mem_nil _)]
    rw [filter_preserves_url_find?]

/-- C1: an event-discovery run with `max_pages = 3` where pages 0 and 1 each
yield new links and page 2 yields zero new (unseen) links returns exactly the
links discovered on pages 0 and 1 (the same list a `max_pages = 2` run
returns), breaks out of the loop on the zero-new-links page, and has exactly
2 link-yielding pages, not 3; the function returns rather than raising. -/
theorem scrape_event_urls_stops_on_stale_page
    (fetch : String → Option (List String)) (l0 l1 : List String)
    (h0 : fetch (build_events_page_url 0) = some l0)
    (h1 : fetch (build_events_page_url 1) = some l1)
    (hy0 : (processEventPage l0 { all_event_urls := [], seen := [] }).2 ≠ [])
    (hy1 : (processEventPage l1
      (processEventPage l0 { all_event_urls := [], seen := [] }).1).2 ≠ [])
    (hstale : (processEventPage l1 (processEventPage l1
      (processEventPage l0 { all_event_urls := [], seen := [] }).1).1).2 = []) :
    scrape_event_urls fetch 3 = scrape_event_urls fetch 2 ∧
    (scrapeEventPages fetch (List.range 3)
      { all_event_urls := [], seen := [] }).stoppedOnEmpty = true ∧
    (scrapeEventPages fetch (List.range 3)
      { all_event_urls := [], seen := [] }).yieldingPages = 2 := by
  rcases hp0 : processEventPage l0 { all_event_urls := [], seen := [] } with ⟨st1, pu0⟩
  rw [hp0] at hy0 hy1 hstale
  simp only [] at hy0 hy1 hstale
  rcases hp1 : processEventPage l1 st1 with ⟨st2, pu1⟩
  rw [hp1] at hy1 hstale
  simp only [] at hy1 hstale
  rcases hp2 : processEventPage l1 st2 with ⟨st3, pu2⟩
  rw [hp2] at hstale
  simp only [] at hstale
  subst hstale
  have hst3 : st3 = st2 := by
    have h := @processEventPage_empty_state l1 st2 (by rw [hp2])
    rw [hp2] at h
    exact h
  subst hst3
  have hpu0 : ¬(pu0.isEmpty = true) := by
    cases pu0 with
    | nil => exact absurd rfl hy0
    | cons a l => simp
  have hpu1 : ¬(pu1.isEmpty = true) := by
    cases pu1 with
    | nil => exact absurd rfl hy1
    | cons a l => simp
  have e2 : scrapeEventPages fetch [2] st3 =
      { urls := st3.all_event_urls, yieldingPages := 0, stoppedOnEmpty := true } := by
    unfold scrapeEventPages
    rw [show build_events_page_url 2 = build_events_page_url 1 from rfl, h1]
    simp only []
    rw [hp2]
    rfl
  have e1 : scrapeEventPages fetch [1, 2] st1 =
      { urls := st3.all_event_urls, yieldingPages := 1, stoppedOnEmpty := true } := by
    unfold scrapeEventPages
    rw [h1]
    simp only []
    rw [hp1]
    simp only []
    rw [if_neg hpu1, e2]
  have e1' : scrapeEventPages fetch [1] st1 =
      { urls := st3.all_event_urls, yieldingPages := 1, stoppedOnEmpty := false } := by
    unfold scrapeEventPages
    rw [h1]
    simp only []
    rw [hp1]
    simp only []
    rw [if_neg hpu1]
    rfl
  have e0 : scrapeEventPages fetch [0, 1, 2] { all_event_urls := [], seen := [] } =
      { urls := st3.all_event_urls, yieldingPages := 2, stoppedOnEmpty := true } := by
    unfold scrapeEventPages
    rw [h0]
    simp only []
    rw [hp0]
    simp only []
    rw [if_neg hpu0, e1]
  have e0' : scrapeEventPages fetch [0, 1] { all_event_urls := [], seen := [] } =
      { urls := st3.all_event_urls, yieldingPages := 2, stoppedOnEmpty := false } := by
    unfold scrapeEventPages
    rw [h0]
    simp only []
    rw [hp0]
    simp only []
    rw [if_neg hpu0, e1']
  refine ⟨?_, ?_, ?_⟩
  · unfold scrape_event_urls
    rw [show List.range 3 = [0, 1, 2] from rfl, show List.range 2 = [0, 1] from rfl,
      e0, e0']
  · rw [show List.range 3 = [0, 1, 2] from rfl, e0]
  · rw [show List.range 3 = [0, 1, 2] from rfl, e0]

/-- Fetch function for the C1 witness: page 0 shows event `a`, the
`?page=all` view (pages 1 and 2) shows events `a` and `b`. -/
def wFetch : String → Option (List String) := fun u =>
  if u = build_events_page_url 0 then some ["/event-details/a"]
  else if u = build_events_page_url 1 then
    some ["/event-details/a", "/event-details/b"]
  else none

/-- Witness for C1: with the concrete fetch above, page 0 yields `a`, page 1
yields `b`, page 2 yields nothing new, and the run with `max_pages = 3`
matches the run with `max_pages = 2`, stopped early, with 2 yielding pages. -/
theorem scrape_event_urls_stops_on_stale_page_witness :
    scrape_event_urls wFetch 3 = scrape_event_urls wFetch 2 ∧
    (scrapeEventPages wFetch (List.range 3)
      { all_event_urls := [], seen := [] }).stoppedOnEmpty = true ∧
    (scrapeEventPages wFetch (List.range 3)
      { all_event_urls := [], seen := [] }).yieldingPages = 2 :=
  scrape_event_urls_stops_on_stale_page wFetch ["/event-details/a"]
    ["/event-details/a", "/event-details/b"]
    (by decide) (by decide) (by decide) (by decide) (by decide)

theorem pyIntE_of_none {s : String} (h : pyInt? s = none) :
    pyIntE s = .error "ValueError" := by
  unfold pyIntE
  rw [h]

theorem pyIntE_of_some {s : String} {n : Int} (h : pyInt? s = some n) :
    pyIntE s = .ok n := by
  unfold pyIntE
  rw [h]

theorem pyIntCoreE_of_digits {ds : List Char} (hne : ds ≠ [])
    (hd : ∀ c ∈ ds, c.isDigit = true) : pyIntCoreE ds = .ok (digitsVal ds) := by
  unfold pyIntCoreE
  rw [pyIntCore_digits hne hd]
  rfl

theorem pyFloatE_of_none {s : String} (h : pyFloat? s = none) :
    pyFloatE s = .error "ValueError" := by
  unfold pyFloatE
  rw [h]

theorem pyFloatE_of_some {s : String} {x : PyFloat} (h : pyFloat? s = some x) :
    pyFloatE s = .ok x := by
  unfold pyFloatE
  rw [h]

theorem matchHeightBare_groups {cs d1 d2 : List Char}
    (h : matchHeightBare cs = some (d1, d2)) :
    (d1 ≠ [] ∧ ∀ c ∈ d1, c.isDigit = true) ∧
    (d2 ≠ [] ∧ ∀ c ∈ d2, c.isDigit = true) := by
  unfold matchHeightBare at h
  split at h
  · exact absurd h (by simp)
  next da ra h1 =>
    split at h
    next r2 h2 =>
      split at h
      · exact absurd h (by simp)
      next db rb h3 =>
        obtain ⟨rfl, rfl⟩ : da = d1 ∧ db = d2 := by
          have := h
          simp only [Option.some.injEq, Prod.mk.injEq] at this
          exact this
        exact ⟨takeDigits1_spec h1, takeDigits1_spec h3⟩
    · exact absurd h (by simp)

theorem matchHeightFull_groups {cs d1 d2 : List Char}
    (h : matchHeightFull cs = some (d1, d2)) :
    (d1 ≠ [] ∧ ∀ c ∈ d1, c.isDigit = true) ∧
    (d2 ≠ [] ∧ ∀ c ∈ d2, c.isDigit = true) := by
  unfold matchHeightFull at h
  split at h
  · exact absurd h (by simp)
  next da ra h1 =>
    split at h
    next r2 h2 =>
      split at h
      · exact absurd h (by simp)
      next db rb h3 =>
        split at h
        next h4 =>
          obtain ⟨rfl, rfl⟩ : da = d1 ∧ db = d2 := by
            have := h
            simp only [Option.some.injEq, Prod.mk.injEq] at this
            exact this
          exact ⟨takeDigits1_spec h1, takeDigits1_spec h3⟩
        · exact absurd h (by simp)
    · exact absurd h (by simp)

theorem heightMatch_groups {cs d1 d2 : List Char}
    (h : (matchHeightFull cs <|> matchHeightBare cs) = some (d1, d2)) :
    (d1 ≠ [] ∧ ∀ c ∈ d1, c.isDigit = true) ∧
    (d2 ≠ [] ∧ ∀ c ∈ d2, c.isDigit = true) := by
  cases hful : matchHeightFull cs with
  | none =>
    rw [hful] at h
    simp only [Option.orElse, Option.none_orElse] at h
    exact matchHeightBare_groups h
  | some p =>
    rw [hful] at h
    simp only [Option.orElse, Option.some_orElse] at h
    injection h with h'
    subst h'
    exact matchHeightFull_groups hful

/-- C6: every text normalizer is total — modelling each `int()` / `float()`
call as a raisable operation in the `Except` monad with exactly the
`try/except` blocks present in the source, each normalizer never propagates
an exception and agrees with its pure `Option`-valued embedding on every
input (null, empty, placeholder, or arbitrary text). -/
theorem normalizers_total :
    (∀ v : Option String, parse_made_of_exc v = .ok (parse_made_of v)) ∧
    (∀ v : Option String, parse_height_to_inches_exc v = .ok (parse_height_to_inches v)) ∧
    (∀ v : Option String, parse_reach_to_inches_exc v = .ok (parse_reach_to_inches v)) ∧
    (∀ v : Option String, parse_float_stat_exc v = .ok (parse_float_stat v)) ∧
    (∀ v : Option String, parse_american_odds_exc v = .ok (parse_american_odds v)) := by
  refine ⟨?_, ?_, ?_, ?_, ?_⟩
  · intro v
    match v with
    | none => rfl
    | some s =>
      unfold parse_made_of_exc parse_made_of
      simp only []
      by_cases hs : s = ""
      · rw [if_pos hs, if_pos hs]
      · rw [if_neg hs, if_neg hs]
        by_cases hl : (pySplit s "of").length ≠ 2
        · rw [if_pos hl, if_pos hl]
        · rw [if_neg hl, if_neg hl]
          cases hpa : pyInt? (pyStrip ((pySplit s "of").getD 0 "")) with
          | none =>
            rw [pyIntE_of_none hpa]
            rfl
          | some m =>
            rw [pyIntE_of_some hpa]
            cases hpb : pyInt? (pyStrip ((pySplit s "of").getD 1 "")) with
            | none =>
              rw [pyIntE_of_none hpb]
              rfl
            | some a =>
              rw [pyIntE_of_some hpb]
              rfl
  · intro v
    match v with
    | none => rfl
    | some s =>
      unfold parse_height_to_inches_exc parse_height_to_inches
      simp only []
      by_cases hph : pyStrip s = "--" ∨ pyStrip s = ""
      · rw [if_pos hph, if_pos hph]
      · rw [if_neg hph, if_neg hph]
        cases hm : matchHeightFull (pyStrip s).toList <|> matchHeightBare (pyStrip s).toList with
        | none => rfl
        | some p =>
          obtain ⟨d1, d2⟩ := p
          obtain ⟨⟨h1ne, h1d⟩, ⟨h2ne, h2d⟩⟩ := heightMatch_groups hm
          simp only []
          rw [pyIntCoreE_of_digits h1ne h1d, pyIntCoreE_of_digits h2ne h2d]
          rfl
  · intro v
    match v with
    | none => rfl
    | some s =>
      unfold parse_reach_to_inches_exc parse_reach_to_inches
      simp only []
      by_cases hph : pyStrip s = "--" ∨ pyStrip s = ""
      · rw [if_pos hph, if_pos hph]
      · rw [if_neg hph, if_neg hph]
        cases hf : pyFloat? (String.mk ((pyStrip s).toList.filter (fun c => c ≠ '"'))) with
        | none =>
          rw [pyFloatE_of_none hf]
          rfl
        | some x =>
          rw [pyFloatE_of_some hf]
  · intro v
    match v with
    | none => rfl
    | some s =>
      unfold parse_float_stat_exc parse_float_stat
      simp only []
      by_cases hph : pyStrip s = "--" ∨ pyStrip s = ""
      · rw [if_pos hph, if_pos hph]
      · rw [if_neg hph, if_neg hph]
        cases hf : pyFloat? (pyStrip (String.mk ((pyStrip s).toList.filter (fun c => c ≠ '%')))) with
        | none =>
          rw [pyFloatE_of_none hf]
          rfl
        | some x =>
          rw [pyFloatE_of_some hf]
  · intro v
    match v with
    | none => rfl
    | some s =>
      unfold parse_american_odds_exc parse_american_odds
      simp only []
      by_cases hs : pyStrip s = ""
      · rw [if_pos hs, if_pos hs]
      · rw [if_neg hs, if_neg hs]
        cases hg : oddsGroup (pyStrip s).toList with
        | none => rfl
        | some g =>
          simp only []
          cases hc : pyIntCore g with
          | none =>
            rw [show pyIntCoreE g = .error "ValueError" from by unfold pyIntCoreE; rw [hc]]
            rfl
          | some n =>
            rw [show pyIntCoreE g = .ok n from by unfold pyIntCoreE; rw [hc]]
